import Mathlib

/-!
Verification of the `csrf` crate (`src/lib.rs`): CSRF token types with
one-time-pad masking and base64 text serialization.

Modelling conventions:
* `u32` / `u64` values are `Nat` together with explicit `< 2 ^ 32` / `< 2 ^ 64`
  bounds where they matter; all bitwise operations are `Nat` operations.
* The operating-system random source is modelled by passing the random value
  (`otp`) as an explicit argument: the code uses it only as an opaque `u32`.
* The `impl Into<&[u8]>` raw-pointer byte views reinterpret the integer's
  memory; on the crate's little-endian targets this is the little-endian byte
  encoding, which is how `toBytes` models it below.
* Fallible operations return `Except Base64DecodeError`.
-/

/-- Error wrapper for base64 decoding failures (`Base64DecodeError(pub String)`). -/
structure Base64DecodeError where
  msg : String
deriving DecidableEq

/-- The server-side secret token: `pub struct Token(u32)`. -/
structure Token where
  val : Nat
deriving DecidableEq

/-- The client-side masked token: `pub struct PaddedToken(u64)`. -/
structure PaddedToken where
  val : Nat
deriving DecidableEq

/-- `PaddedToken::new`: `masked = otp ^ real_token.0;
PaddedToken(((otp as u64) << 32) | masked as u64)`.  The freshly drawn random
`u32` is the explicit argument `otp`. -/
def PaddedToken.new (realToken : Token) (otp : Nat) : PaddedToken :=
  ⟨(otp <<< 32) ||| (otp ^^^ realToken.val)⟩

/-- `PaddedToken::unmask`: `otp = (self.0 >> 32) as u32; masked = (self.0 &
0xFFFFFFFF) as u32; Token(otp ^ masked)`. -/
def PaddedToken.unmask (p : PaddedToken) : Token :=
  ⟨(p.val >>> 32) ^^^ (p.val &&& 0xFFFFFFFF)⟩

/-- Derived `Default` on `Token(u32)`: the zero token. -/
def Token.default : Token := ⟨0⟩

/-- Derived `PartialEq` on `Token(u32)`: exact bitwise comparison of the field. -/
def Token.beq (a b : Token) : Bool := a.val == b.val

/-- Standard base64 alphabet, as used by `base64::encode` / `base64::decode`
(standard configuration with padding). -/
def base64Alphabet : List Char :=
  ['A', 'B', 'C', 'D', 'E', 'F', 'G', 'H', 'I', 'J', 'K', 'L', 'M',
   'N', 'O', 'P', 'Q', 'R', 'S', 'T', 'U', 'V', 'W', 'X', 'Y', 'Z',
   'a', 'b', 'c', 'd', 'e', 'f', 'g', 'h', 'i', 'j', 'k', 'l', 'm',
   'n', 'o', 'p', 'q', 'r', 's', 't', 'u', 'v', 'w', 'x', 'y', 'z',
   '0', '1', '2', '3', '4', '5', '6', '7', '8', '9', '+', '/']

/-- Table lookup of a 6-bit group's base64 character. -/
def encodeChar (n : Nat) : Char := base64Alphabet.getD n 'A'

/-- Inverse table lookup: the 6-bit value of a base64 character, `none` for any
character outside the standard alphabet. -/
def decodeChar (c : Char) : Option Nat :=
  let n := c.toNat
  if 65 ≤ n ∧ n ≤ 90 then some (n - 65)
  else if 97 ≤ n ∧ n ≤ 122 then some (n - 97 + 26)
  else if 48 ≤ n ∧ n ≤ 57 then some (n - 48 + 52)
  else if n = 43 then some 62
  else if n = 47 then some 63
  else none

/-- base64 encoding of a byte list, three bytes per four output characters,
padded with `=` (standard base64 with padding, as `base64::encode` produces). -/
def encodeChunks : List Nat → List Char
  | a :: b :: c :: rest =>
    encodeChar (a / 4) :: encodeChar (a % 4 * 16 + b / 16) ::
      encodeChar (b % 16 * 4 + c / 64) :: encodeChar (c % 64) :: encodeChunks rest
  | [a, b] =>
    [encodeChar (a / 4), encodeChar (a % 4 * 16 + b / 16), encodeChar (b % 16 * 4), '=']
  | [a] => [encodeChar (a / 4), encodeChar (a % 4 * 16), '=', '=']
  | [] => []

/-- `base64::encode` on a byte buffer. -/
def encodeBase64 (bytes : List Nat) : String := String.mk (encodeChunks bytes)

/-- Decoding of one full four-character base64 group into three bytes. -/
def decodeQuad (c1 c2 c3 c4 : Char) : Option (List Nat) :=
  match decodeChar c1, decodeChar c2, decodeChar c3, decodeChar c4 with
  | some v1, some v2, some v3, some v4 =>
    some [v1 * 4 + v2 / 16, v2 % 16 * 16 + v3 / 4, v3 % 4 * 64 + v4]
  | _, _, _, _ => none

/-- Decoding of the final four-character base64 group, honouring `=` padding. -/
def decodeLastChunk (c1 c2 c3 c4 : Char) : Option (List Nat) :=
  if c4 = '=' then
    if c3 = '=' then
      match decodeChar c1, decodeChar c2 with
      | some v1, some v2 => some [v1 * 4 + v2 / 16]
      | _, _ => none
    else
      match decodeChar c1, decodeChar c2, decodeChar c3 with
      | some v1, some v2, some v3 => some [v1 * 4 + v2 / 16, v2 % 16 * 16 + v3 / 4]
      | _, _, _ => none
  else decodeQuad c1 c2 c3 c4

/-- base64 decoding of a character list: four characters at a time, padding only
in the final group, `none` on any malformed input. -/
def decodeChunks : List Char → Option (List Nat)
  | [] => some []
  | c1 :: c2 :: c3 :: c4 :: rest =>
    if rest.isEmpty then decodeLastChunk c1 c2 c3 c4
    else
      match decodeQuad c1 c2 c3 c4, decodeChunks rest with
      | some bs, some tail => some (bs ++ tail)
      | _, _ => none
  | _ => none

/-- `base64::decode` on a string. -/
def decodeBase64 (s : String) : Option (List Nat) := decodeChunks s.data

/-- The byte view of a `Token` (`impl Into<&[u8]> for &Token`): the four bytes
of the `u32` in memory, modelled in little-endian order per the crate's
little-endian targets. -/
def Token.toBytes (t : Token) : List Nat :=
  [t.val % 256, t.val / 256 % 256, t.val / 65536 % 256, t.val / 16777216 % 256]

/-- The byte view of a `PaddedToken` (`impl Into<&[u8]> for &PaddedToken`): the
eight bytes of the `u64` in memory, modelled in little-endian order. -/
def PaddedToken.toBytes (p : PaddedToken) : List Nat :=
  [p.val % 256, p.val / 256 % 256, p.val / 65536 % 256, p.val / 16777216 % 256,
   p.val / 4294967296 % 256, p.val / 1099511627776 % 256,
   p.val / 281474976710656 % 256, p.val / 72057594037927936 % 256]

/-- `impl fmt::Display for Token`: base64 of the byte view. -/
def Token.display (t : Token) : String := encodeBase64 t.toBytes

/-- `impl fmt::Display for PaddedToken`: base64 of the byte view. -/
def PaddedToken.display (p : PaddedToken) : String := encodeBase64 p.toBytes

/-- `Cursor::read_u32::<LittleEndian>`: reads the first four bytes of the buffer
as a little-endian `u32`, failing only when fewer than four bytes remain. -/
def readU32LE : List Nat → Except String Nat
  | b0 :: b1 :: b2 :: b3 :: _ =>
    Except.ok (b0 + b1 * 256 + b2 * 65536 + b3 * 16777216)
  | _ => Except.error "failed to fill whole buffer"

/-- `Cursor::read_u64::<LittleEndian>`: reads the first eight bytes of the
buffer as a little-endian `u64`, failing only when fewer than eight remain. -/
def readU64LE : List Nat → Except String Nat
  | b0 :: b1 :: b2 :: b3 :: b4 :: b5 :: b6 :: b7 :: _ =>
    Except.ok (b0 + b1 * 256 + b2 * 65536 + b3 * 16777216 + b4 * 4294967296 +
      b5 * 1099511627776 + b6 * 281474976710656 + b7 * 72057594037927936)
  | _ => Except.error "failed to fill whole buffer"

/-- `Token::from_base64_str`: base64-decode, then read a little-endian `u32`
from the front of the decoded buffer. -/
def Token.from_base64_str (s : String) : Except Base64DecodeError Token :=
  match decodeBase64 s with
  | none => Except.error ⟨"invalid base64 encoding"⟩
  | some bytes =>
    match readU32LE bytes with
    | Except.error e => Except.error ⟨e⟩
    | Except.ok v => Except.ok ⟨v⟩

/-- `PaddedToken::from_base64_str`: base64-decode, then read a little-endian
`u64` from the front of the decoded buffer. -/
def PaddedToken.from_base64_str (s : String) : Except Base64DecodeError PaddedToken :=
  match decodeBase64 s with
  | none => Except.error ⟨"invalid base64 encoding"⟩
  | some bytes =>
    match readU64LE bytes with
    | Except.error e => Except.error ⟨e⟩
    | Except.ok v => Except.ok ⟨v⟩

/-- The packed 64-bit value `(a <<< 32) ||| b` is `a * 2 ^ 32 + b` when the low
word `b` fits in 32 bits. -/
theorem pack_eq (a b : Nat) (hb : b < 2 ^ 32) : (a <<< 32) ||| b = a * 2 ^ 32 + b := by
  rw [Nat.shiftLeft_eq, Nat.mul_comm a]
  exact (Nat.mul_add_lt_is_or hb a).symm

/-- Shifting the packed value right by 32 recovers the high word. -/
theorem pack_shiftRight (a b : Nat) (hb : b < 2 ^ 32) : ((a <<< 32) ||| b) >>> 32 = a := by
  rw [pack_eq a b hb, Nat.shiftRight_eq_div_pow]
  omega

/-- Masking the packed value with `0xFFFFFFFF` recovers the low word. -/
theorem pack_and (a b : Nat) (hb : b < 2 ^ 32) : ((a <<< 32) ||| b) &&& 0xFFFFFFFF = b := by
  rw [show (0xFFFFFFFF : Nat) = 2 ^ 32 - 1 from by norm_num,
    Nat.and_pow_two_sub_one_eq_mod, pack_eq a b hb]
  omega

/-- XOR with the same value on the left cancels. -/
theorem xor_xor_cancel (a b : Nat) : a ^^^ (a ^^^ b) = b := by
  rw [← Nat.xor_assoc, Nat.xor_self, Nat.zero_xor]

/-- C1: for every 32-bit secret `t` and every one-time pad value `otp` the
random source may return, `PaddedToken.new t otp` unmasks back to `t`. -/
theorem mask_unmask_roundtrip (t : Token) (otp : Nat) (ht : t.val < 2 ^ 32)
    (hotp : otp < 2 ^ 32) : (PaddedToken.new t otp).unmask = t := by
  obtain ⟨s⟩ := t
  have hx : otp ^^^ s < 2 ^ 32 := Nat.xor_lt_two_pow hotp ht
  simp only [PaddedToken.new, PaddedToken.unmask]
  rw [pack_shiftRight _ _ hx, pack_and _ _ hx, xor_xor_cancel]

/-- Witness for C1 at the concrete secret `0xDEADBEEF` and pad `0x12345678`. -/
theorem mask_unmask_roundtrip_witness :
    (PaddedToken.new ⟨3735928559⟩ 305419896).unmask = ⟨3735928559⟩ :=
  mask_unmask_roundtrip ⟨3735928559⟩ 305419896 (by decide) (by decide)

/-- C3: with secret `0xDEADBEEF` and pad `0x12345678`, the constructed
`PaddedToken` has low 32 bits `0x12345678 XOR 0xDEADBEEF`, high 32 bits
`0x12345678`, and unmasks to `Token(0xDEADBEEF)`. -/
theorem layout_vector_deadbeef :
    (PaddedToken.new ⟨0xDEADBEEF⟩ 0x12345678).val &&& 0xFFFFFFFF = 0x12345678 ^^^ 0xDEADBEEF ∧
    (PaddedToken.new ⟨0xDEADBEEF⟩ 0x12345678).val >>> 32 = 0x12345678 ∧
    (PaddedToken.new ⟨0xDEADBEEF⟩ 0x12345678).unmask = ⟨0xDEADBEEF⟩ :=
  ⟨by decide, by decide, by decide⟩

/-- C6: `unmask` is total and deterministic on every 64-bit value: it returns
the XOR of the high and low 32-bit halves, and the result always fits in 32
bits (it is a well-formed `Token`), with no failure case. -/
theorem unmask_total (p : PaddedToken) (hp : p.val < 2 ^ 64) :
    p.unmask.val = (p.val / 2 ^ 32) ^^^ (p.val % 2 ^ 32) ∧ p.unmask.val < 2 ^ 32 := by
  obtain ⟨v⟩ := p
  have hv : v < 2 ^ 64 := hp
  have h1 : PaddedToken.unmask ⟨v⟩ = ⟨(v / 2 ^ 32) ^^^ (v % 2 ^ 32)⟩ := by
    simp only [PaddedToken.unmask]
    rw [Nat.shiftRight_eq_div_pow,
      show (0xFFFFFFFF : Nat) = 2 ^ 32 - 1 from by norm_num,
      Nat.and_pow_two_sub_one_eq_mod]
  refine ⟨by rw [h1], ?_⟩
  rw [h1]
  exact Nat.xor_lt_two_pow (by omega) (by omega)

/-- Witness for C6 at the all-ones 64-bit value. -/
theorem unmask_total_witness :
    (PaddedToken.unmask ⟨18446744073709551615⟩).val =
      (18446744073709551615 / 2 ^ 32) ^^^ (18446744073709551615 % 2 ^ 32) ∧
    (PaddedToken.unmask ⟨18446744073709551615⟩).val < 2 ^ 32 :=
  unmask_total ⟨18446744073709551615⟩ (by decide)

/-- C8: for a fixed secret, the packing `(otp <<< 32) ||| (otp ^^^ secret)` is
injective in the one-time pad, so distinct pads give distinct 64-bit tokens. -/
theorem otp_injective (s o1 o2 : Nat) (hs : s < 2 ^ 32) (h1 : o1 < 2 ^ 32)
    (h2 : o2 < 2 ^ 32) (hne : o1 ≠ o2) :
    PaddedToken.new ⟨s⟩ o1 ≠ PaddedToken.new ⟨s⟩ o2 := by
  intro heq
  have hv := congrArg PaddedToken.val heq
  simp only [PaddedToken.new] at hv
  have h3 : ((o1 <<< 32) ||| (o1 ^^^ s)) >>> 32 = ((o2 <<< 32) ||| (o2 ^^^ s)) >>> 32 := by
    rw [hv]
  rw [pack_shiftRight o1 (o1 ^^^ s) (Nat.xor_lt_two_pow h1 hs),
    pack_shiftRight o2 (o2 ^^^ s) (Nat.xor_lt_two_pow h2 hs)] at h3
  exact hne h3

/-- Witness for C8 at secret `0` and pads `0`, `1`. -/
theorem otp_injective_witness : PaddedToken.new ⟨0⟩ 0 ≠ PaddedToken.new ⟨0⟩ 1 :=
  otp_injective 0 0 1 (by decide) (by decide) (by decide) (by decide)

/-- C10: the derived `Default` gives the all-zero token, and under the derived
bitwise equality it compares equal exactly to tokens whose 32 bits are zero. -/
theorem default_is_zero :
    Token.default = ⟨0⟩ ∧ ∀ t : Token, (Token.beq Token.default t = true ↔ t.val = 0) := by
  refine ⟨rfl, fun t => ?_⟩
  show (0 == t.val) = true ↔ t.val = 0
  rw [beq_iff_eq]
  exact eq_comm

/-- Witness for C10 at the zero token. -/
theorem default_is_zero_witness : Token.beq Token.default ⟨0⟩ = true :=
  (default_is_zero.2 ⟨0⟩).mpr rfl

/-- Decoding inverts encoding on every 6-bit value. -/
theorem decodeChar_encodeChar : ∀ n : Nat, n < 64 → decodeChar (encodeChar n) = some n := by
  decide

/-- The encoding table never produces the padding character, small indices. -/
theorem encodeChar_ne_pad_lt : ∀ n : Nat, n < 64 → encodeChar n ≠ '=' := by
  decide

/-- The encoding table never produces the padding character. -/
theorem encodeChar_ne_pad (n : Nat) : encodeChar n ≠ '=' := by
  rcases Nat.lt_or_ge n 64 with h | h
  · exact encodeChar_ne_pad_lt n h
  · show base64Alphabet.getD n 'A' ≠ '='
    rw [List.getD_eq_default base64Alphabet 'A'
      (le_trans (le_of_eq (show base64Alphabet.length = 64 from rfl)) h)]
    decide

/-- Unfolding `decodeBase64` over `encodeBase64`. -/
theorem decodeBase64_encodeBase64 (l : List Nat) :
    decodeBase64 (encodeBase64 l) = decodeChunks (encodeChunks l) := rfl

/-- `decodeChunks` on exactly four characters uses the padded final-chunk rule. -/
theorem decodeChunks_four (c1 c2 c3 c4 : Char) :
    decodeChunks [c1, c2, c3, c4] = decodeLastChunk c1 c2 c3 c4 := rfl

/-- `decodeChunks` on more than four characters decodes a full group and
recurses. -/
theorem decodeChunks_more (c1 c2 c3 c4 c5 : Char) (rest : List Char) :
    decodeChunks (c1 :: c2 :: c3 :: c4 :: c5 :: rest) =
      match decodeQuad c1 c2 c3 c4, decodeChunks (c5 :: rest) with
      | some bs, some tail => some (bs ++ tail)
      | _, _ => none := rfl

/-- Evaluation of `decodeQuad` once all four characters decode. -/
theorem decodeQuad_vals (c1 c2 c3 c4 : Char) (v1 v2 v3 v4 : Nat)
    (h1 : decodeChar c1 = some v1) (h2 : decodeChar c2 = some v2)
    (h3 : decodeChar c3 = some v3) (h4 : decodeChar c4 = some v4) :
    decodeQuad c1 c2 c3 c4 =
      some [v1 * 4 + v2 / 16, v2 % 16 * 16 + v3 / 4, v3 % 4 * 64 + v4] := by
  unfold decodeQuad
  rw [h1, h2, h3, h4]

/-- Evaluation of the final chunk with two padding characters. -/
theorem decodeLastChunk_two (c1 c2 : Char) (v1 v2 : Nat) (h1 : decodeChar c1 = some v1)
    (h2 : decodeChar c2 = some v2) :
    decodeLastChunk c1 c2 '=' '=' = some [v1 * 4 + v2 / 16] := by
  unfold decodeLastChunk
  rw [if_pos rfl, if_pos rfl, h1, h2]

/-- Evaluation of the final chunk with one padding character. -/
theorem decodeLastChunk_three (c1 c2 c3 : Char) (v1 v2 v3 : Nat)
    (h1 : decodeChar c1 = some v1) (h2 : decodeChar c2 = some v2)
    (h3 : decodeChar c3 = some v3) (hc3 : c3 ≠ '=') :
    decodeLastChunk c1 c2 c3 '=' = some [v1 * 4 + v2 / 16, v2 % 16 * 16 + v3 / 4] := by
  unfold decodeLastChunk
  rw [if_pos rfl, if_neg hc3, h1, h2, h3]

/-- `Token::from_base64_str` after a successful base64 decode. -/
theorem from_base64_some (s : String) (bytes : List Nat) (h : decodeBase64 s = some bytes) :
    Token.from_base64_str s =
      match readU32LE bytes with
      | Except.error e => Except.error ⟨e⟩
      | Except.ok v => Except.ok ⟨v⟩ := by
  unfold Token.from_base64_str
  rw [h]

/-- `Token::from_base64_str` after a failed base64 decode. -/
theorem from_base64_none (s : String) (h : decodeBase64 s = none) :
    Token.from_base64_str s = Except.error ⟨"invalid base64 encoding"⟩ := by
  unfold Token.from_base64_str
  rw [h]

/-- `PaddedToken::from_base64_str` after a successful base64 decode. -/
theorem padded_from_base64_some (s : String) (bytes : List Nat)
    (h : decodeBase64 s = some bytes) :
    PaddedToken.from_base64_str s =
      match readU64LE bytes with
      | Except.error e => Except.error ⟨e⟩
      | Except.ok v => Except.ok ⟨v⟩ := by
  unfold PaddedToken.from_base64_str
  rw [h]

/-- `PaddedToken::from_base64_str` after a failed base64 decode. -/
theorem padded_from_base64_none (s : String) (h : decodeBase64 s = none) :
    PaddedToken.from_base64_str s = Except.error ⟨"invalid base64 encoding"⟩ := by
  unfold PaddedToken.from_base64_str
  rw [h]

/-- The little-endian `u32` reader fails on buffers shorter than four bytes. -/
theorem readU32LE_short (bytes : List Nat) (h : bytes.length < 4) :
    readU32LE bytes = Except.error "failed to fill whole buffer" := by
  rcases bytes with _ | ⟨b0, _ | ⟨b1, _ | ⟨b2, _ | ⟨b3, rest⟩⟩⟩⟩
  · rfl
  · rfl
  · rfl
  · rfl
  · exfalso
    simp only [List.length_cons] at h
    omega

/-- The little-endian `u64` reader fails on buffers shorter than eight bytes. -/
theorem readU64LE_short (bytes : List Nat) (h : bytes.length < 8) :
    readU64LE bytes = Except.error "failed to fill whole buffer" := by
  rcases bytes with _ | ⟨b0, _ | ⟨b1, _ | ⟨b2, _ | ⟨b3, _ | ⟨b4, _ | ⟨b5, _ | ⟨b6, _ | ⟨b7, rest⟩⟩⟩⟩⟩⟩⟩⟩
  · rfl
  · rfl
  · rfl
  · rfl
  · rfl
  · rfl
  · rfl
  · rfl
  · exfalso
    simp only [List.length_cons] at h
    omega

/-- base64 decoding inverts encoding on every four-byte buffer. -/
theorem decode_encode_four (a b c d : Nat) (ha : a < 256) (hb : b < 256) (hc : c < 256)
    (hd : d < 256) : decodeBase64 (encodeBase64 [a, b, c, d]) = some [a, b, c, d] := by
  have e1 : decodeChar (encodeChar (a / 4)) = some (a / 4) :=
    decodeChar_encodeChar _ (by omega)
  have e2 : decodeChar (encodeChar (a % 4 * 16 + b / 16)) = some (a % 4 * 16 + b / 16) :=
    decodeChar_encodeChar _ (by omega)
  have e3 : decodeChar (encodeChar (b % 16 * 4 + c / 64)) = some (b % 16 * 4 + c / 64) :=
    decodeChar_encodeChar _ (by omega)
  have e4 : decodeChar (encodeChar (c % 64)) = some (c % 64) :=
    decodeChar_encodeChar _ (by omega)
  have e5 : decodeChar (encodeChar (d / 4)) = some (d / 4) :=
    decodeChar_encodeChar _ (by omega)
  have e6 : decodeChar (encodeChar (d % 4 * 16)) = some (d % 4 * 16) :=
    decodeChar_encodeChar _ (by omega)
  show decodeChunks (encodeChunks [a, b, c, d]) = some [a, b, c, d]
  rw [show encodeChunks [a, b, c, d] =
      [encodeChar (a / 4), encodeChar (a % 4 * 16 + b / 16), encodeChar (b % 16 * 4 + c / 64),
       encodeChar (c % 64), encodeChar (d / 4), encodeChar (d % 4 * 16), '=', '='] from rfl,
    decodeChunks_more, decodeQuad_vals _ _ _ _ _ _ _ _ e1 e2 e3 e4,
    decodeChunks_four, decodeLastChunk_two _ _ _ _ e5 e6,
    show a / 4 * 4 + (a % 4 * 16 + b / 16) / 16 = a from by omega,
    show (a % 4 * 16 + b / 16) % 16 * 16 + (b % 16 * 4 + c / 64) / 4 = b from by omega,
    show (b % 16 * 4 + c / 64) % 4 * 64 + c % 64 = c from by omega,
    show d / 4 * 4 + d % 4 * 16 / 16 = d from by omega]
  rfl

/-- base64 decoding inverts encoding on every eight-byte buffer. -/
theorem decode_encode_eight (a b c d e f g h : Nat) (ha : a < 256) (hb : b < 256)
    (hc : c < 256) (hd : d < 256) (he : e < 256) (hf : f < 256) (hg : g < 256)
    (hh : h < 256) :
    decodeBase64 (encodeBase64 [a, b, c, d, e, f, g, h]) = some [a, b, c, d, e, f, g, h] := by
  have e1 : decodeChar (encodeChar (a / 4)) = some (a / 4) :=
    decodeChar_encodeChar _ (by omega)
  have e2 : decodeChar (encodeChar (a % 4 * 16 + b / 16)) = some (a % 4 * 16 + b / 16) :=
    decodeChar_encodeChar _ (by omega)
  have e3 : decodeChar (encodeChar (b % 16 * 4 + c / 64)) = some (b % 16 * 4 + c / 64) :=
    decodeChar_encodeChar _ (by omega)
  have e4 : decodeChar (encodeChar (c % 64)) = some (c % 64) :=
    decodeChar_encodeChar _ (by omega)
  have e5 : decodeChar (encodeChar (d / 4)) = some (d / 4) :=
    decodeChar_encodeChar _ (by omega)
  have e6 : decodeChar (encodeChar (d % 4 * 16 + e / 16)) = some (d % 4 * 16 + e / 16) :=
    decodeChar_encodeChar _ (by omega)
  have e7 : decodeChar (encodeChar (e % 16 * 4 + f / 64)) = some (e % 16 * 4 + f / 64) :=
    decodeChar_encodeChar _ (by omega)
  have e8 : decodeChar (encodeChar (f % 64)) = some (f % 64) :=
    decodeChar_encodeChar _ (by omega)
  have e9 : decodeChar (encodeChar (g / 4)) = some (g / 4) :=
    decodeChar_encodeChar _ (by omega)
  have e10 : decodeChar (encodeChar (g % 4 * 16 + h / 16)) = some (g % 4 * 16 + h / 16) :=
    decodeChar_encodeChar _ (by omega)
  have e11 : decodeChar (encodeChar (h % 16 * 4)) = some (h % 16 * 4) :=
    decodeChar_encodeChar _ (by omega)
  show decodeChunks (encodeChunks [a, b, c, d, e, f, g, h]) = some [a, b, c, d, e, f, g, h]
  rw [show encodeChunks [a, b, c, d, e, f, g, h] =
      [encodeChar (a / 4), encodeChar (a % 4 * 16 + b / 16), encodeChar (b % 16 * 4 + c / 64),
       encodeChar (c % 64), encodeChar (d / 4), encodeChar (d % 4 * 16 + e / 16),
       encodeChar (e % 16 * 4 + f / 64), encodeChar (f % 64), encodeChar (g / 4),
       encodeChar (g % 4 * 16 + h / 16), encodeChar (h % 16 * 4), '='] from rfl,
    decodeChunks_more, decodeQuad_vals _ _ _ _ _ _ _ _ e1 e2 e3 e4,
    decodeChunks_more, decodeQuad_vals _ _ _ _ _ _ _ _ e5 e6 e7 e8,
    decodeChunks_four,
    decodeLastChunk_three _ _ _ _ _ _ e9 e10 e11 (encodeChar_ne_pad _),
    show a / 4 * 4 + (a % 4 * 16 + b / 16) / 16 = a from by omega,
    show (a % 4 * 16 + b / 16) % 16 * 16 + (b % 16 * 4 + c / 64) / 4 = b from by omega,
    show (b % 16 * 4 + c / 64) % 4 * 64 + c % 64 = c from by omega,
    show d / 4 * 4 + (d % 4 * 16 + e / 16) / 16 = d from by omega,
    show (d % 4 * 16 + e / 16) % 16 * 16 + (e % 16 * 4 + f / 64) / 4 = e from by omega,
    show (e % 16 * 4 + f / 64) % 4 * 64 + f % 64 = f from by omega,
    show g / 4 * 4 + (g % 4 * 16 + h / 16) / 16 = g from by omega,
    show (g % 4 * 16 + h / 16) % 16 * 16 + h % 16 * 4 / 4 = h from by omega]
  rfl

/-- C2 counterexample: `"AQIDBAU="` is valid base64 whose decoded length is 5,
not 4, yet `Token::from_base64_str` accepts it, returning the token read from
the first four bytes (`0x04030201`); the claim says it must be rejected. -/
theorem extended_buffer_accepted :
    decodeBase64 "AQIDBAU=" = some [1, 2, 3, 4, 5] ∧
    Token.from_base64_str "AQIDBAU=" = Except.ok ⟨67305985⟩ :=
  ⟨rfl, rfl⟩

/-- C2 amended: both decoders reject a decoded buffer only when it is
truncated — shorter than 4 bytes for `Token`, shorter than 8 bytes for
`PaddedToken`; extended buffers are accepted. -/
theorem truncated_rejected :
    (∀ (s : String) (bytes : List Nat), decodeBase64 s = some bytes → bytes.length < 4 →
      ∃ e, Token.from_base64_str s = Except.error e) ∧
    (∀ (s : String) (bytes : List Nat), decodeBase64 s = some bytes → bytes.length < 8 →
      ∃ e, PaddedToken.from_base64_str s = Except.error e) := by
  constructor
  · intro s bytes hdec hlen
    refine ⟨⟨"failed to fill whole buffer"⟩, ?_⟩
    rw [from_base64_some s bytes hdec, readU32LE_short bytes hlen]
  · intro s bytes hdec hlen
    refine ⟨⟨"failed to fill whole buffer"⟩, ?_⟩
    rw [padded_from_base64_some s bytes hdec, readU64LE_short bytes hlen]

/-- Witness for the amended C2: `"AQID"` decodes to 3 bytes and is rejected by
`Token::from_base64_str`; `"AQIDBAU="` decodes to 5 bytes and is rejected by
`PaddedToken::from_base64_str`. -/
theorem truncated_rejected_witness :
    (∃ e, Token.from_base64_str "AQID" = Except.error e) ∧
    (∃ e, PaddedToken.from_base64_str "AQIDBAU=" = Except.error e) :=
  ⟨truncated_rejected.1 "AQID" [1, 2, 3] rfl (by decide),
   truncated_rejected.2 "AQIDBAU=" [1, 2, 3, 4, 5] rfl (by decide)⟩

/-- C4: decoding the `Display` serialization returns the original token, for
both `Token` (4 bytes) and `PaddedToken` (8 bytes). -/
theorem text_roundtrip :
    (∀ t : Token, t.val < 2 ^ 32 → Token.from_base64_str t.display = Except.ok t) ∧
    (∀ p : PaddedToken, p.val < 2 ^ 64 → PaddedToken.from_base64_str p.display = Except.ok p) := by
  constructor
  · intro t ht
    obtain ⟨v⟩ := t
    have hv : v < 2 ^ 32 := ht
    have hdec : decodeBase64 (Token.display ⟨v⟩) =
        some [v % 256, v / 256 % 256, v / 65536 % 256, v / 16777216 % 256] :=
      decode_encode_four _ _ _ _ (by omega) (by omega) (by omega) (by omega)
    rw [from_base64_some _ _ hdec]
    exact congrArg (fun n => Except.ok (Token.mk n))
      (show v % 256 + v / 256 % 256 * 256 + v / 65536 % 256 * 65536 +
        v / 16777216 % 256 * 16777216 = v from by omega)
  · intro p hp
    obtain ⟨v⟩ := p
    have hv : v < 2 ^ 64 := hp
    have hdec : decodeBase64 (PaddedToken.display ⟨v⟩) =
        some [v % 256, v / 256 % 256, v / 65536 % 256, v / 16777216 % 256,
          v / 4294967296 % 256, v / 1099511627776 % 256, v / 281474976710656 % 256,
          v / 72057594037927936 % 256] :=
      decode_encode_eight _ _ _ _ _ _ _ _ (by omega) (by omega) (by omega) (by omega)
        (by omega) (by omega) (by omega) (by omega)
    rw [padded_from_base64_some _ _ hdec]
    exact congrArg (fun n => Except.ok (PaddedToken.mk n))
      (show v % 256 + v / 256 % 256 * 256 + v / 65536 % 256 * 65536 +
        v / 16777216 % 256 * 16777216 + v / 4294967296 % 256 * 4294967296 +
        v / 1099511627776 % 256 * 1099511627776 +
        v / 281474976710656 % 256 * 281474976710656 +
        v / 72057594037927936 % 256 * 72057594037927936 = v from by omega)

/-- Witness for C4 at `Token(1)` and `PaddedToken(1)`. -/
theorem text_roundtrip_witness :
    Token.from_base64_str (Token.display ⟨1⟩) = Except.ok ⟨1⟩ ∧
    PaddedToken.from_base64_str (PaddedToken.display ⟨1⟩) = Except.ok ⟨1⟩ :=
  ⟨text_roundtrip.1 ⟨1⟩ (by decide), text_roundtrip.2 ⟨1⟩ (by decide)⟩

/-- C5: the byte view of a `Token` is exactly the 4-byte little-endian encoding
of its `u32` (reading it back little-endian recovers the value); the byte view
of a `PaddedToken` is the 8-byte little-endian encoding of its `u64`; and for a
constructed token, bytes 0-3 are the masked low word and bytes 4-7 the otp
high word. -/
theorem byte_layout :
    (∀ t : Token, t.val < 2 ^ 32 → readU32LE t.toBytes = Except.ok t.val) ∧
    (∀ p : PaddedToken, p.val < 2 ^ 64 → readU64LE p.toBytes = Except.ok p.val) ∧
    (∀ (t : Token) (otp : Nat), t.val < 2 ^ 32 → otp < 2 ^ 32 →
      (PaddedToken.new t otp).toBytes =
        (Token.mk (otp ^^^ t.val)).toBytes ++ (Token.mk otp).toBytes) := by
  refine ⟨?_, ?_, ?_⟩
  · intro t ht
    obtain ⟨v⟩ := t
    have hv : v < 2 ^ 32 := ht
    exact congrArg Except.ok (show v % 256 + v / 256 % 256 * 256 + v / 65536 % 256 * 65536 +
      v / 16777216 % 256 * 16777216 = v from by omega)
  · intro p hp
    obtain ⟨v⟩ := p
    have hv : v < 2 ^ 64 := hp
    exact congrArg Except.ok (show v % 256 + v / 256 % 256 * 256 + v / 65536 % 256 * 65536 +
      v / 16777216 % 256 * 16777216 + v / 4294967296 % 256 * 4294967296 +
      v / 1099511627776 % 256 * 1099511627776 +
      v / 281474976710656 % 256 * 281474976710656 +
      v / 72057594037927936 % 256 * 72057594037927936 = v from by omega)
  · intro t otp ht hotp
    obtain ⟨s⟩ := t
    have hs : s < 2 ^ 32 := ht
    have hm : otp ^^^ s < 2 ^ 32 := Nat.xor_lt_two_pow hotp hs
    simp only [PaddedToken.new, PaddedToken.toBytes, Token.toBytes, List.cons_append,
      List.nil_append, List.cons.injEq, and_true]
    rw [pack_eq otp (otp ^^^ s) hm]
    omega

/-- Witness for C5 at `Token(258)`, `PaddedToken(515)` and the `0xDEADBEEF` /
`0x12345678` masking vector. -/
theorem byte_layout_witness :
    readU32LE (Token.toBytes ⟨258⟩) = Except.ok 258 ∧
    readU64LE (PaddedToken.toBytes ⟨515⟩) = Except.ok 515 ∧
    (PaddedToken.new ⟨3735928559⟩ 305419896).toBytes =
      (Token.mk (305419896 ^^^ 3735928559)).toBytes ++ (Token.mk 305419896).toBytes :=
  ⟨byte_layout.1 ⟨258⟩ (by decide), byte_layout.2.1 ⟨515⟩ (by decide),
   byte_layout.2.2 ⟨3735928559⟩ 305419896 (by decide) (by decide)⟩

/-- C7: any string the base64 decoder rejects makes both `from_base64_str`
functions return a `DecodeError` rather than any token value. -/
theorem invalid_base64_rejected (s : String) (h : decodeBase64 s = none) :
    Token.from_base64_str s = Except.error ⟨"invalid base64 encoding"⟩ ∧
    PaddedToken.from_base64_str s = Except.error ⟨"invalid base64 encoding"⟩ :=
  ⟨from_base64_none s h, padded_from_base64_none s h⟩

/-- Witness for C7 at the non-base64 input `"!"`. -/
theorem invalid_base64_rejected_witness :
    Token.from_base64_str "!" = Except.error ⟨"invalid base64 encoding"⟩ ∧
    PaddedToken.from_base64_str "!" = Except.error ⟨"invalid base64 encoding"⟩ :=
  invalid_base64_rejected "!" rfl

/-- C9: the decoders accept over-long buffers and read only a prefix — any
valid base64 string with at least 4 decoded bytes yields the token built from
the first four bytes little-endian, and any with at least 8 decoded bytes
yields the padded token built from the first eight, trailing bytes ignored. -/
theorem prefix_accepted :
    (∀ (s : String) (b0 b1 b2 b3 : Nat) (rest : List Nat),
      decodeBase64 s = some (b0 :: b1 :: b2 :: b3 :: rest) →
      Token.from_base64_str s = Except.ok ⟨b0 + b1 * 256 + b2 * 65536 + b3 * 16777216⟩) ∧
    (∀ (s : String) (b0 b1 b2 b3 b4 b5 b6 b7 : Nat) (rest : List Nat),
      decodeBase64 s = some (b0 :: b1 :: b2 :: b3 :: b4 :: b5 :: b6 :: b7 :: rest) →
      PaddedToken.from_base64_str s =
        Except.ok ⟨b0 + b1 * 256 + b2 * 65536 + b3 * 16777216 + b4 * 4294967296 +
          b5 * 1099511627776 + b6 * 281474976710656 + b7 * 72057594037927936⟩) := by
  constructor
  · intro s b0 b1 b2 b3 rest hdec
    rw [from_base64_some s _ hdec]
    rfl
  · intro s b0 b1 b2 b3 b4 b5 b6 b7 rest hdec
    rw [padded_from_base64_some s _ hdec]
    rfl

/-- Witness for C9: `"AQIDBAU="` (5 decoded bytes) is accepted as the token of
its first four bytes; `"AQIDBAUGBwgJ"` (9 decoded bytes) as the padded token of
its first eight. -/
theorem prefix_accepted_witness :
    Token.from_base64_str "AQIDBAU=" = Except.ok ⟨67305985⟩ ∧
    PaddedToken.from_base64_str "AQIDBAUGBwgJ" = Except.ok ⟨578437695752307201⟩ :=
  ⟨prefix_accepted.1 "AQIDBAU=" 1 2 3 4 [5] rfl,
   prefix_accepted.2 "AQIDBAUGBwgJ" 1 2 3 4 5 6 7 8 [9] rfl⟩
